import Mathlib

/-!
Verification development for the cipherwyze TLS scanner.

Shallow embedding of `src/scan.ts`.  Pure logic (hostname validation,
candidate ordering, the sequential trial loop, certificate-field
extraction with its try/catch recovery, posture evaluation, error
classification and the final result assembly) is translated into Lean
functions.  External effects are oracles supplied as inputs:

* DNS lookup becomes `ScanEnv.dns`, the outcome `dns.lookup` produced;
* each candidate's TLS connection becomes `ScanEnv.net ip`: either the
  `error`-event message, or the data observable inside the
  `secureConnect` handler (`HandshakeData`);
* `new Date(v).toISOString()` becomes `DateOracle.toIso` (it can throw on
  an unparseable date string, hence `Except Unit String`);
* accessors of Node's `X509Certificate` object become the fields of
  `X509Parsed`, each an `Except Unit _` because in JavaScript any of
  those property reads may throw inside the `try` block;
* the two clock reads (`new Date().toISOString()` at scan.ts line 32 and
  line 158) become `ScanEnv.t0` and `HandshakeData.handlerTime`.

JavaScript string primitives used by the source are re-implemented over
`List Char` (`String.toLower` and friends do not reduce in the kernel),
each with a comment naming the construct it models.  ASCII data is
assumed, matching the scanner's domain.
-/

namespace CipherWyze

/-! ## JavaScript string primitives -/

/-- Model of `s.toLowerCase()` for ASCII data. -/
def jsLower (s : String) : String := String.mk (s.toList.map Char.toLower)

/-- Model of `s.toUpperCase()` for ASCII data. -/
def jsUpper (s : String) : String := String.mk (s.toList.map Char.toUpper)

/-- Contiguous-substring test on character lists, scanning left to right
exactly as `String.prototype.includes` does. -/
def hasSub (needle : List Char) : List Char → Bool
  | [] => needle.isEmpty
  | c :: t => needle.isPrefixOf (c :: t) || hasSub needle t

/-- Model of `hay.includes(needle)`. -/
def strIncludes (hay needle : String) : Bool := hasSub needle.toList hay.toList

/-- Splitting on a one-character separator, as `s.split(",")` does
(`"".split(",")` is `[""]`, separators at the ends give empty pieces). -/
def splitOnChar (sep : Char) : List Char → List (List Char)
  | [] => [[]]
  | c :: rest =>
    if c == sep then [] :: splitOnChar sep rest
    else
      match splitOnChar sep rest with
      | [] => [[c]]
      | h :: t => (c :: h) :: t

/-- Whitespace stripped by `s.trim()` (ASCII part). -/
def jsTrimChar (c : Char) : Bool :=
  c == ' ' || c == '\t' || c == '\n' || c == '\r' || c == '\x0b' || c == '\x0c'

/-- Model of `s.trim()` on a character list. -/
def trimChars (l : List Char) : List Char :=
  ((l.dropWhile jsTrimChar).reverse.dropWhile jsTrimChar).reverse

/-- Value of a string of decimal digits. -/
def digitsToNat (l : List Char) : Nat :=
  l.foldl (fun n c => n * 10 + (c.toNat - 48)) 0

/-- Model of `(Number(x) || 0)` for `x : string | null` (scan.ts line 133),
on the strings extraction produces: `null` and `""` give 0, a string of
decimal digits gives its value, and any other string is `NaN`, which
`|| 0` turns into 0. -/
def jsNumberOrZero (o : Option String) : Nat :=
  match o with
  | none => 0
  | some s =>
    if !s.toList.isEmpty && s.toList.all Char.isDigit then digitsToNat s.toList
    else 0

/-- Model of the JavaScript truthiness coercion `x || null` for
`x : string`: the empty string is falsy. -/
def orNull (s : String) : Option String := if s == "" then none else some s

/-- Model of `x || null` for `x : string | null | undefined`. -/
def orNullOpt (o : Option String) : Option String :=
  match o with
  | none => none
  | some s => orNull s

/-! ## DomainValidator (scan.ts lines 6-9) -/

/-- Character class `[A-Za-z0-9.-]` of the hostname regex (line 7). -/
def isHostChar (c : Char) : Bool :=
  c.isAlpha || c.isDigit || c == '.' || c == '-'

/-- Model of `/^\d{1,3}(\.\d{1,3}){3}$/.test(host)` (line 8): exactly four
dot-separated runs of one to three decimal digits. -/
def isIPv4Literal (s : String) : Bool :=
  let parts := splitOnChar '.' s.toList
  parts.length == 4 &&
    parts.all (fun p =>
      decide (1 ≤ p.length) && decide (p.length ≤ 3) && p.all Char.isDigit)

/-- Character class `[0-9a-f:]` with the `i` flag (line 9). -/
def isHexColonChar (c : Char) : Bool :=
  c.isDigit || (decide ('a' ≤ c) && decide (c ≤ 'f')) ||
    (decide ('A' ≤ c) && decide (c ≤ 'F')) || c == ':'

/-- Model of `/^[0-9a-f:]+$/i.test(host)` (line 9).  Note the regex does
not require a colon: any non-empty all-hex string matches it. -/
def isHexColonLiteral (s : String) : Bool :=
  !s.toList.isEmpty && s.toList.all isHexColonChar

/-- `isAsciiHostname` (scan.ts lines 6-9). -/
def isAsciiHostname (host : String) : Bool :=
  (host.toList.all isHostChar && decide (1 ≤ host.length) &&
    decide (host.length ≤ 255))
  && !isIPv4Literal host
  && !isHexColonLiteral host

/-- Modelled from the spec and claim wording, for comparison with
`isAsciiHostname`: rule 1, the character class `[A-Za-z0-9.-]` with
length 1 to 255; rule 2, not a dotted-quad IPv4 literal; rule 3, not a
colon-containing hex (IPv6) literal. -/
def specHostnameRules (host : String) : Bool :=
  (host.toList.all isHostChar && decide (1 ≤ host.length) &&
    decide (host.length ≤ 255))
  && !isIPv4Literal host
  && !(isHexColonLiteral host && host.toList.contains ':')

/-! ## Data model (types.ts) -/

/-- The `cert` object of `TlsScanResult` (types.ts lines 7-17).
`keyType` is one of the literal strings `"rsa"`, `"ec"`, `"ed25519"`,
`"ed448"`, `"unknown"`, kept as `String` to mirror the union type. -/
structure CertInfo where
  cn : Option String
  issuer : Option String
  notBefore : Option String
  notAfter : Option String
  san : List String
  signatureAlgorithm : Option String
  keyType : String
  keyBitsOrCurve : Option String
  fingerprint256 : Option String
deriving DecidableEq, Repr

/-- Initial values of the extraction variables (scan.ts lines 77-85). -/
def defaultCert : CertInfo :=
  { cn := none, issuer := none, notBefore := none, notAfter := none,
    san := [], signatureAlgorithm := none, keyType := "unknown",
    keyBitsOrCurve := none, fingerprint256 := none }

/-- The `posture` object (types.ts lines 18-22); `pqc_ready` is one of the
literal strings `"no"`, `"partial"`, `"unknown"`. -/
structure Posture where
  tls_ok : Bool
  weak_alg : Bool
  pqc_ready : String
deriving DecidableEq, Repr

/-- `TlsScanResult` (types.ts lines 1-24). -/
structure TlsScanResult where
  domain : String
  resolvedIPs : List String
  tlsVersion : Option String
  alpn : Option String
  cipherSuite : Option String
  cert : CertInfo
  posture : Posture
  scannedAt : String
deriving DecidableEq, Repr

/-- An error thrown by the scanner: an `Error` with a `status` property
attached (scan.ts lines 13, 18, 28, 46, 165). -/
structure ScanErr where
  message : String
  status : Nat
deriving DecidableEq, Repr

/-- One record of `dns.lookup(domain, { all: true })`. -/
structure DnsAddr where
  address : String
  family : Nat
deriving DecidableEq, Repr

/-! ## Oracles for the platform library -/

deriving instance DecidableEq for Except

/-- Outcome oracle for `new Date(v).toISOString()`: `.error` when the
conversion throws (invalid date string). -/
structure DateOracle where
  toIso : String → Except Unit String

/-- The public key object `x.publicKey` (scan.ts lines 100-117):
`asymmetricKeyType` and the `asymmetricKeyDetails` fields the code reads
through optional chaining. -/
structure PublicKey where
  asymmetricKeyType : Option String
  modulusLength : Option Nat
  namedCurve : Option String
deriving DecidableEq, Repr

/-- Accessor outcomes of a constructed `X509Certificate` (scan.ts lines
89-117).  Each property read happens inside the `try` block and may
throw, hence `Except Unit _`; `subjectAltName` may also be `undefined`. -/
structure X509Parsed where
  fingerprint256 : Except Unit String
  issuer : Except Unit String
  validFrom : Except Unit String
  validTo : Except Unit String
  signatureAlgorithm : Except Unit String
  subject : Except Unit String
  subjectAltName : Except Unit (Option String)
  publicKey : Except Unit PublicKey
deriving DecidableEq, Repr

/-- The fields of the `getPeerCertificate` summary the fallback path
reads (scan.ts lines 120-123): `subject?.CN`, `issuer?.CN`,
`valid_from`, `valid_to`. -/
structure PeerSummary where
  subjectCN : Option String
  issuerCN : Option String
  valid_from : Option String
  valid_to : Option String
deriving DecidableEq, Repr

/-- Everything the `secureConnect` handler observes (scan.ts lines
64-75 and 158): negotiated protocol, ALPN, cipher name, the raw
certificate (when the transport exposes it, with its parse/accessor
outcomes), the pre-parsed peer summary, and the clock value read at
line 158. -/
structure HandshakeData where
  tlsVersion : Option String
  alpnProtocol : Option String
  cipherName : Option String
  raw : Option (Except Unit X509Parsed)
  peer : PeerSummary
  handlerTime : String
deriving DecidableEq, Repr

/-- The environment of one `scanTls` call: the DNS outcome, the clock
value read at line 32, the per-candidate connection outcome (the
`error`-event message, or the handshake data), and the date oracle. -/
structure ScanEnv where
  dns : Except String (List DnsAddr)
  t0 : String
  net : String → Except String HandshakeData
  date : DateOracle

/-! ## CertificateExtractor (scan.ts lines 87-129, 171-189) -/

/-- `extractCN` (scan.ts lines 171-175): the regex `/CN=([^,]+)/` scans
left to right for the first position where `CN=` is followed by at least
one non-comma character, and captures the maximal run of non-comma
characters after the `=`. -/
def extractCNChars : List Char → Option String
  | [] => none
  | c :: rest =>
    if c == 'C' then
      match rest with
      | 'N' :: '=' :: t =>
        match t with
        | [] => extractCNChars rest
        | t0 :: _ =>
          if t0 == ',' then extractCNChars rest
          else some (String.mk (t.takeWhile (fun x => !(x == ','))))
      | _ => extractCNChars rest
    else extractCNChars rest

/-- `extractCN` on a subject string. -/
def extractCN (subject : String) : Option String :=
  extractCNChars subject.toList

/-- Body of `extractSANs` (scan.ts lines 179-185): split the
`subjectAltName` string on commas, trim each piece, keep those starting
with `DNS:` and drop that prefix (`s.slice(4)`). -/
def extractSANsFrom (ext : String) : List String :=
  (((splitOnChar ',' ext.toList).map trimChars).filter
      (fun p => ("DNS:".toList).isPrefixOf p)).map
    (fun p => String.mk (p.drop 4))

/-- One field of the form `v ? new Date(v).toISOString() : null`
(scan.ts lines 92, 93, 122, 123): an empty (falsy) string assigns
`null`; otherwise the date conversion runs and may throw. -/
def jsDateField (d : DateOracle) (v : String) : Except Unit (Option String) :=
  if v == "" then Except.ok none else (d.toIso v).map some

/-- Same guard when the value may also be `undefined`
(`peer.valid_from` in the fallback path). -/
def jsDateFieldOpt (d : DateOracle) (o : Option String) :
    Except Unit (Option String) :=
  match o with
  | none => Except.ok none
  | some v => jsDateField d v

/-- Key classification (scan.ts lines 100-117): dispatch on
`asymmetricKeyType`; for RSA, `keyBitsOrCurve` is
`String(modulusLength ?? "")`; for EC it is `namedCurve ?? null`; the
Edwards types leave `keyBitsOrCurve` at its initial `null`. -/
def classifyKey (c : CertInfo) (pk : PublicKey) : CertInfo :=
  if pk.asymmetricKeyType == some "rsa" then
    { c with keyType := "rsa",
             keyBitsOrCurve := some (match pk.modulusLength with
               | some n => toString n
               | none => "") }
  else if pk.asymmetricKeyType == some "ec" then
    { c with keyType := "ec", keyBitsOrCurve := pk.namedCurve }
  else if pk.asymmetricKeyType == some "ed25519" then
    { c with keyType := "ed25519" }
  else if pk.asymmetricKeyType == some "ed448" then
    { c with keyType := "ed448" }
  else
    { c with keyType := "unknown" }

/-- The `san` assignment (scan.ts line 98): `extractSANs` wraps its body
in its own try/catch returning `[]`, so a throwing `subjectAltName`
accessor yields `[]` and never aborts the outer `try`; an `undefined`
extension also yields `[]` (line 180). -/
def sanValue (x : X509Parsed) : List String :=
  match x.subjectAltName with
  | Except.error _ => []
  | Except.ok none => []
  | Except.ok (some ext) => extractSANsFrom ext

/-- Model of `x.fingerprint256.replace(/:/g, "")` (scan.ts line 90): a
global regex replace of a single character by nothing removes every
occurrence of that character. -/
def stripColons (s : String) : String :=
  String.mk (s.toList.filter (fun ch => !(ch == ':')))

/-- Primary extraction path (scan.ts lines 88-117), with the `catch` of
line 125: statements run in source order; the first one that throws
stops the block, keeping every field already assigned and leaving the
rest at their initial values (`defaultCert`). -/
def runPrimary (d : DateOracle) (px : Except Unit X509Parsed) : CertInfo :=
  match px with
  | Except.error _ => defaultCert
  | Except.ok x =>
    match x.fingerprint256 with
    | Except.error _ => defaultCert
    | Except.ok fp =>
      let c1 := { defaultCert with fingerprint256 := some (stripColons fp) }
      match x.issuer with
      | Except.error _ => c1
      | Except.ok istr =>
        let c2 := { c1 with issuer := orNull istr }
        match x.validFrom with
        | Except.error _ => c2
        | Except.ok vf =>
          match jsDateField d vf with
          | Except.error _ => c2
          | Except.ok nb =>
            let c3 := { c2 with notBefore := nb }
            match x.validTo with
            | Except.error _ => c3
            | Except.ok vt =>
              match jsDateField d vt with
              | Except.error _ => c3
              | Except.ok na =>
                let c4 := { c3 with notAfter := na }
                match x.signatureAlgorithm with
                | Except.error _ => c4
                | Except.ok sa =>
                  let c5 := { c4 with signatureAlgorithm := orNull sa }
                  match x.subject with
                  | Except.error _ => c5
                  | Except.ok subj =>
                    let c6 := { c5 with cn := orNullOpt (extractCN subj) }
                    let c7 := { c6 with san := sanValue x }
                    match x.publicKey with
                    | Except.error _ => c7
                    | Except.ok pk => classifyKey c7 pk

/-- Fallback extraction path (scan.ts lines 118-124): `cn` and `issuer`
come straight from the peer summary (plain property reads, no throw);
each date conversion may throw, ending the block early. -/
def runFallback (d : DateOracle) (p : PeerSummary) : CertInfo :=
  let c1 := { defaultCert with cn := p.subjectCN, issuer := p.issuerCN }
  match jsDateFieldOpt d p.valid_from with
  | Except.error _ => c1
  | Except.ok nb =>
    let c2 := { c1 with notBefore := nb }
    match jsDateFieldOpt d p.valid_to with
    | Except.error _ => c2
    | Except.ok na => { c2 with notAfter := na }

/-- The whole `try`/`catch` of scan.ts lines 87-129: primary path when
raw bytes are present (`if (raw)`), fallback otherwise. -/
def extractCert (d : DateOracle) (raw : Option (Except Unit X509Parsed))
    (peer : PeerSummary) : CertInfo :=
  match raw with
  | some px => runPrimary d px
  | none => runFallback d peer

/-! ## PostureEvaluator (scan.ts lines 131-138) -/

/-- `tls_ok` (scan.ts line 131):
`!!tlsVersion && (tlsVersion === "TLSv1.3" || tlsVersion === "TLSv1.2")`. -/
def tlsOkOf (tlsVersion : Option String) : Bool :=
  match tlsVersion with
  | none => false
  | some v => !(v == "") && (v == "TLSv1.3" || v == "TLSv1.2")

/-- `weak_alg` (scan.ts lines 132-136). -/
def weakAlgOf (keyType : String) (keyBitsOrCurve : Option String)
    (signatureAlgorithm : Option String) (cipherSuite : Option String) : Bool :=
  (keyType == "rsa" && decide (jsNumberOrZero keyBitsOrCurve < 2048))
  || strIncludes (jsLower (signatureAlgorithm.getD "")) "sha1"
  || strIncludes (jsUpper (cipherSuite.getD "")) "RC4"
  || strIncludes (jsUpper (cipherSuite.getD "")) "3DES"

/-- `pqc_ready` (scan.ts lines 137-138). -/
def pqcReadyOf (keyType : String) : String :=
  if keyType == "ec" || keyType == "rsa" then "no" else "unknown"

/-! ## One connection attempt (scan.ts lines 50-168) -/

/-- Status classification of the `error` event handler (scan.ts line
165): `/timeout/i.test(e.message) ? 504 : 502`. -/
def classifyStatus (msg : String) : Nat :=
  if strIncludes (jsLower msg) "timeout" then 504 else 502

/-- `connectOnce` (scan.ts lines 50-168).  The promise either rejects
from the `error` event (message wrapped as `TLS error: ...`, status from
`classifyStatus`) or resolves from the `secureConnect` handler with the
assembled result: note `resolvedIPs: [ip]` (line 142) and
`scannedAt: new Date().toISOString()` (line 158). -/
def connectOnce (domain ip : String) (d : DateOracle)
    (out : Except String HandshakeData) : Except ScanErr TlsScanResult :=
  match out with
  | Except.error emsg =>
    Except.error { message := "TLS error: " ++ emsg, status := classifyStatus emsg }
  | Except.ok h =>
    let cipherSuite := orNullOpt h.cipherName
    let alpn := orNullOpt h.alpnProtocol
    let cert := extractCert d h.raw h.peer
    Except.ok
      { domain := domain,
        resolvedIPs := [ip],
        tlsVersion := h.tlsVersion,
        alpn := alpn,
        cipherSuite := cipherSuite,
        cert := cert,
        posture :=
          { tls_ok := tlsOkOf h.tlsVersion,
            weak_alg := weakAlgOf cert.keyType cert.keyBitsOrCurve
              cert.signatureAlgorithm cipherSuite,
            pqc_ready := pqcReadyOf cert.keyType },
        scannedAt := h.handlerTime }

/-! ## scanTls (scan.ts lines 11-48) -/

/-- Candidate ordering (scan.ts lines 23-26): IPv4 records first, then
IPv6, each family in resolver order. -/
def sortedOf (addrs : List DnsAddr) : List DnsAddr :=
  addrs.filter (fun a => a.family == 4) ++ addrs.filter (fun a => a.family == 6)

/-- The trial loop (scan.ts lines 35-47).  On an attempt's success the
return is `{ ...result, resolvedIPs, scannedAt }`: in a JavaScript
object literal the later explicit properties override the spread, so the
full candidate list and the pre-loop timestamp replace the fields
`connectOnce` set.  On failure the error is recorded in `lastErr` and
the next candidate is tried; when the list is exhausted a new error is
thrown with `lastErr?.message || "TLS connect failed"` and
`lastErr?.status || 502` (falsy values fall back). -/
def tryLoop (domain : String) (env : ScanEnv) (resolvedIPs : List String)
    (scannedAt : String) (lastErr : Option ScanErr) :
    List String → Except ScanErr TlsScanResult
  | [] =>
    Except.error
      { message := match lastErr with
          | some e => if e.message == "" then "TLS connect failed" else e.message
          | none => "TLS connect failed",
        status := match lastErr with
          | some e => if e.status == 0 then 502 else e.status
          | none => 502 }
  | ip :: rest =>
    match connectOnce domain ip env.date (env.net ip) with
    | Except.ok result =>
      Except.ok { result with resolvedIPs := resolvedIPs, scannedAt := scannedAt }
    | Except.error e => tryLoop domain env resolvedIPs scannedAt (some e) rest

/-- `scanTls` (scan.ts lines 11-48): validate, resolve, order the
candidates, reject an empty candidate list, then run the trial loop with
the full `resolvedIPs` list and the pre-loop clock value. -/
def scanTls (domain : String) (env : ScanEnv) : Except ScanErr TlsScanResult :=
  if !isAsciiHostname domain then
    Except.error { message := "Invalid domain", status := 400 }
  else
    match env.dns with
    | Except.error m =>
      Except.error { message := "DNS lookup failed: " ++ m, status := 502 }
    | Except.ok addrs =>
      let sorted := sortedOf addrs
      if sorted.length == 0 then
        Except.error { message := "No A/AAAA records", status := 502 }
      else
        let resolvedIPs := sorted.map (fun a => a.address)
        tryLoop domain env resolvedIPs env.t0 none resolvedIPs

/-! ## Infrastructure lemmas -/

theorem isPrefixOf_char_iff (n : List Char) :
    ∀ h, n.isPrefixOf h = true ↔ ∃ t, n ++ t = h := by
  induction n with
  | nil =>
    intro h
    simp [List.isPrefixOf]
  | cons a as ih =>
    intro h
    cases h with
    | nil => simp [List.isPrefixOf]
    | cons b bs =>
      simp only [List.isPrefixOf, Bool.and_eq_true, beq_iff_eq, ih bs]
      constructor
      · rintro ⟨hab, t, ht⟩
        exact ⟨t, by rw [hab, List.cons_append, ht]⟩
      · rintro ⟨t, ht⟩
        rw [List.cons_append] at ht
        injection ht with h1 h2
        exact ⟨h1, t, h2⟩

theorem hasSub_iff (n : List Char) :
    ∀ h, hasSub n h = true ↔ ∃ s t, h = s ++ n ++ t := by
  intro h
  induction h with
  | nil =>
    simp only [hasSub, List.isEmpty_iff]
    constructor
    · intro hn; exact ⟨[], [], by simp [hn]⟩
    · rintro ⟨s, t, ht⟩
      rcases List.append_eq_nil.mp (List.append_eq_nil.mp ht.symm).1 with ⟨-, hn⟩
      exact hn
  | cons c cs ih =>
    simp only [hasSub, Bool.or_eq_true, isPrefixOf_char_iff, ih]
    constructor
    · rintro (⟨t, ht⟩ | ⟨s, t, ht⟩)
      · exact ⟨[], t, by simp [ht]⟩
      · exact ⟨c :: s, t, by simp [ht]⟩
    · rintro ⟨s, t, ht⟩
      cases s with
      | nil => exact Or.inl ⟨t, by simpa using ht.symm⟩
      | cons s0 s' =>
        rw [List.cons_append, List.cons_append] at ht
        injection ht with h1 h2
        exact Or.inr ⟨s', t, h2⟩

theorem strIncludes_iff (hay needle : String) :
    strIncludes hay needle = true ↔
      ∃ s t, hay.toList = s ++ needle.toList ++ t := by
  simpa [strIncludes] using hasSub_iff needle.toList hay.toList

/-! ## Claim C5 -/

/-- Counterexample to claim C5 as stated: the negotiated-version strings
`"TLS 1.2"` and `"TLS 1.3"` (with a space, as the spec writes them) make
`tls_ok` false, because the code compares against Node's `"TLSv1.2"` and
`"TLSv1.3"`. -/
theorem tls_ok_space_version_cex :
    tlsOkOf (some "TLS 1.3") = false ∧ tlsOkOf (some "TLS 1.2") = false := by
  exact ⟨by decide, by decide⟩

/-- Claim C5, amended: `tls_ok` is true exactly when the negotiated
protocol string is `"TLSv1.2"` or `"TLSv1.3"` (Node's spellings); any
other version, including an absent one, gives false. -/
theorem tls_ok_exact_node_versions :
    ∀ v, tlsOkOf v = true ↔ (v = some "TLSv1.2" ∨ v = some "TLSv1.3") := by
  intro v
  cases v with
  | none => simp [tlsOkOf]
  | some s =>
    simp only [tlsOkOf, Bool.and_eq_true, Bool.or_eq_true, beq_iff_eq,
      Bool.not_eq_true', beq_eq_false_iff_ne, Option.some.injEq]
    constructor
    · rintro ⟨-, h | h⟩
      · exact Or.inr h
      · exact Or.inl h
    · rintro (h | h)
      · subst h; exact ⟨by decide, Or.inr rfl⟩
      · subst h; exact ⟨by decide, Or.inl rfl⟩

/-! ## Claim C4 -/

/-- Claim C4: `weak_alg` is true iff the key is RSA with parsed bit
length (missing or non-numeric treated as 0) below 2048, or the
signature algorithm contains `"sha1"` case-insensitively, or the cipher
suite contains `"RC4"` or `"3DES"` case-insensitively; in particular an
RSA key of 1024 bits is weak and one of 2048 bits is not (all else
equal). -/
theorem weak_alg_characterization :
    (∀ keyType keyBitsOrCurve signatureAlgorithm cipherSuite,
        weakAlgOf keyType keyBitsOrCurve signatureAlgorithm cipherSuite = true ↔
          ((keyType = "rsa" ∧ jsNumberOrZero keyBitsOrCurve < 2048)
            ∨ (∃ s t, (jsLower (signatureAlgorithm.getD "")).toList =
                s ++ "sha1".toList ++ t)
            ∨ (∃ s t, (jsUpper (cipherSuite.getD "")).toList =
                s ++ "RC4".toList ++ t)
            ∨ (∃ s t, (jsUpper (cipherSuite.getD "")).toList =
                s ++ "3DES".toList ++ t)))
    ∧ weakAlgOf "rsa" (some "1024") none none = true
    ∧ weakAlgOf "rsa" (some "2048") none none = false := by
  refine ⟨?_, by decide, by decide⟩
  intro keyType keyBitsOrCurve signatureAlgorithm cipherSuite
  simp only [weakAlgOf, Bool.or_eq_true, Bool.and_eq_true, beq_iff_eq,
    decide_eq_true_eq, strIncludes_iff]
  rw [or_assoc, or_assoc]

/-! ## Claim C8 -/

/-- Claim C8: `pqc_ready` is `"no"` exactly for the key types `"rsa"`
and `"ec"`, `"unknown"` for every other key type (including
`"ed25519"`, `"ed448"` and `"unknown"`), and no input — including any
successful connection result — ever produces `"partial"`. -/
theorem pqc_ready_characterization :
    (∀ kt, pqcReadyOf kt = "no" ↔ (kt = "rsa" ∨ kt = "ec"))
    ∧ (∀ kt, ¬(kt = "rsa" ∨ kt = "ec") → pqcReadyOf kt = "unknown")
    ∧ (∀ kt, pqcReadyOf kt ≠ "partial")
    ∧ pqcReadyOf "ed25519" = "unknown" ∧ pqcReadyOf "ed448" = "unknown"
    ∧ pqcReadyOf "unknown" = "unknown"
    ∧ (∀ domain ip d out r, connectOnce domain ip d out = Except.ok r →
        r.posture.pqc_ready ≠ "partial") := by
  have hchar : ∀ kt, pqcReadyOf kt = "no" ↔ (kt = "rsa" ∨ kt = "ec") := by
    intro kt
    by_cases h : (kt == "ec" || kt == "rsa") = true
    · rcases (by simpa using h : kt = "ec" ∨ kt = "rsa") with h1 | h1
      · simp [pqcReadyOf, h, h1]
      · simp [pqcReadyOf, h, h1]
    · have h2 : ¬(kt = "ec") ∧ ¬(kt = "rsa") := by
        constructor <;> intro hk <;> exact h (by simp [hk])
      simp only [pqcReadyOf, if_neg h]
      constructor
      · intro hfalse; exact absurd hfalse (by decide)
      · rintro (hk | hk)
        · exact absurd hk h2.2
        · exact absurd hk h2.1
  have hother : ∀ kt, ¬(kt = "rsa" ∨ kt = "ec") → pqcReadyOf kt = "unknown" := by
    intro kt h
    have h2 : (kt == "ec" || kt == "rsa") = false := by
      by_cases hb : (kt == "ec" || kt == "rsa") = true
      · rcases (by simpa using hb : kt = "ec" ∨ kt = "rsa") with h1 | h1
        · exact absurd (Or.inr h1) h
        · exact absurd (Or.inl h1) h
      · simpa using hb
    simp [pqcReadyOf, h2]
  have hnp : ∀ kt, pqcReadyOf kt ≠ "partial" := by
    intro kt
    unfold pqcReadyOf
    split
    · decide
    · decide
  refine ⟨hchar, hother, hnp, by decide, by decide, by decide, ?_⟩
  intro domain ip d out r hok
  cases out with
  | error e => exact absurd hok (by simp [connectOnce])
  | ok h =>
    have hr : r.posture.pqc_ready =
        pqcReadyOf (extractCert d h.raw h.peer).keyType := by
      simp only [connectOnce, Except.ok.injEq] at hok
      rw [← hok]
    rw [hr]
    exact hnp _

/-! ## Claim C10 -/

/-- Claim C10: a per-candidate connection failure is recorded with
status 504 exactly when the underlying error message contains
`"timeout"` case-insensitively, and 502 otherwise; the per-attempt
timeout destroys the socket with the message `"timeout"`, which is
always classified 504. -/
theorem timeout_classification :
    (∀ msg, classifyStatus msg = 504 ↔
        ∃ s t, (jsLower msg).toList = s ++ "timeout".toList ++ t)
    ∧ (∀ msg, classifyStatus msg = 502 ↔
        ¬∃ s t, (jsLower msg).toList = s ++ "timeout".toList ++ t)
    ∧ (∀ domain ip d emsg, connectOnce domain ip d (Except.error emsg) =
        Except.error { message := "TLS error: " ++ emsg,
                       status := classifyStatus emsg })
    ∧ (∀ domain ip d, connectOnce domain ip d (Except.error "timeout") =
        Except.error { message := "TLS error: timeout", status := 504 }) := by
  have h504 : ∀ msg, classifyStatus msg = 504 ↔
      ∃ s t, (jsLower msg).toList = s ++ "timeout".toList ++ t := by
    intro msg
    unfold classifyStatus
    rw [← strIncludes_iff]
    by_cases hx : strIncludes (jsLower msg) "timeout" = true
    · simp [hx]
    · simp [hx]
  refine ⟨h504, ?_, fun _ _ _ _ => rfl, fun _ _ _ => by
    have hcl : classifyStatus "timeout" = 504 := by decide
    simp [connectOnce, hcl]⟩
  intro msg
  unfold classifyStatus
  rw [← strIncludes_iff]
  by_cases hx : strIncludes (jsLower msg) "timeout" = true
  · simp [hx]
  · simp [hx]

/-! ## Claim C2 -/

/-- Claim C2 (code bug): the hostname `"cafe"` satisfies all three rules
of the specification — it matches `[A-Za-z0-9.-]` with admissible
length, is not a dotted-quad IPv4 literal and contains no colon — yet
`isAsciiHostname` rejects it, because the regex `/^[0-9a-f:]+$/i` of
scan.ts line 9 (commented `// no IPv6`) does not require a colon and so
also matches purely hexadecimal names.  The scan then fails with
`Invalid domain` (status 400) before any network activity, for every
environment. -/
theorem hostname_validation_rejects_colonless_hex :
    specHostnameRules "cafe" = true
    ∧ isAsciiHostname "cafe" = false
    ∧ (∀ env : ScanEnv, scanTls "cafe" env =
        Except.error { message := "Invalid domain", status := 400 }) := by
  refine ⟨by decide, by decide, fun env => ?_⟩
  have h : isAsciiHostname "cafe" = false := by decide
  simp [scanTls, h]

/-! ## Trial-loop lemmas -/

theorem connectOnce_error_shape (domain ip : String) (d : DateOracle)
    (out : Except String HandshakeData) (e : ScanErr)
    (h : connectOnce domain ip d out = Except.error e) :
    (e.message == "") = false ∧ (e.status == 0) = false := by
  cases out with
  | ok hs => simp [connectOnce] at h
  | error emsg =>
    simp only [connectOnce, Except.error.injEq] at h
    subst h
    have hst : (classifyStatus emsg == 0) = false := by
      unfold classifyStatus
      by_cases hx : strIncludes (jsLower emsg) "timeout" = true
      · simp [hx]
      · simp [hx]
    refine ⟨?_, hst⟩
    apply beq_eq_false_iff_ne.mpr
    intro hcontra
    have hlen := congrArg String.length hcontra
    rw [String.length_append] at hlen
    simp at hlen
    exact absurd hlen.1 (by decide)

theorem tryLoop_ok_shape (domain : String) (env : ScanEnv)
    (rIPs : List String) (t : String) :
    ∀ ips le r, tryLoop domain env rIPs t le ips = Except.ok r →
      ∃ ip r0, ip ∈ ips ∧
        connectOnce domain ip env.date (env.net ip) = Except.ok r0 ∧
        r = { r0 with resolvedIPs := rIPs, scannedAt := t } := by
  intro ips
  induction ips with
  | nil => intro le r h; simp [tryLoop] at h
  | cons ip rest ih =>
    intro le r h
    cases hc : connectOnce domain ip env.date (env.net ip) with
    | ok r0 =>
      simp only [tryLoop, hc, Except.ok.injEq] at h
      exact ⟨ip, r0, List.mem_cons_self ip rest, hc, h.symm⟩
    | error e =>
      simp only [tryLoop, hc] at h
      obtain ⟨ip1, r0, hmem, hcc, hr⟩ := ih (some e) r h
      exact ⟨ip1, r0, List.mem_cons_of_mem ip hmem, hcc, hr⟩

theorem tryLoop_first_success (domain : String) (env : ScanEnv)
    (rIPs : List String) (t : String) :
    ∀ pre ip post r0 le,
      (∀ p ∈ pre, (connectOnce domain p env.date (env.net p)).isOk = false) →
      connectOnce domain ip env.date (env.net ip) = Except.ok r0 →
      tryLoop domain env rIPs t le (pre ++ ip :: post) =
        Except.ok { r0 with resolvedIPs := rIPs, scannedAt := t } := by
  intro pre
  induction pre with
  | nil =>
    intro ip post r0 le hfail hok
    simp only [List.nil_append, tryLoop, hok]
  | cons p pre1 ih =>
    intro ip post r0 le hfail hok
    cases hc : connectOnce domain p env.date (env.net p) with
    | ok rp =>
      have := hfail p (List.mem_cons_self p pre1)
      rw [hc] at this
      simp [Except.isOk, Except.toBool] at this
    | error e =>
      rw [List.cons_append]
      simp only [tryLoop, hc]
      exact ih ip post r0 (some e)
        (fun q hq => hfail q (List.mem_cons_of_mem p hq)) hok

theorem tryLoop_all_fail (domain : String) (env : ScanEnv)
    (rIPs : List String) (t : String) :
    ∀ ips, ips ≠ [] →
      (∀ p ∈ ips, (connectOnce domain p env.date (env.net p)).isOk = false) →
      ∃ ipLast e, ips.getLast? = some ipLast ∧
        connectOnce domain ipLast env.date (env.net ipLast) = Except.error e ∧
        ∀ le, tryLoop domain env rIPs t le ips = Except.error e := by
  intro ips
  induction ips with
  | nil => intro hne; exact absurd rfl hne
  | cons ip rest ih =>
    intro hne hfail
    cases hrest : rest with
    | nil =>
      cases hc : connectOnce domain ip env.date (env.net ip) with
      | ok r0 =>
        have := hfail ip (List.mem_cons_self ip rest)
        rw [hc] at this
        simp [Except.isOk, Except.toBool] at this
      | error e =>
        obtain ⟨hm, hs⟩ := connectOnce_error_shape domain ip env.date (env.net ip) e hc
        refine ⟨ip, e, by simp [hrest], hc, fun le => ?_⟩
        subst hrest
        simp only [tryLoop, hc, hm, hs]
        rfl
    | cons ip2 rest2 =>
      subst hrest
      cases hc : connectOnce domain ip env.date (env.net ip) with
      | ok r0 =>
        have := hfail ip (List.mem_cons_self ip (ip2 :: rest2))
        rw [hc] at this
        simp [Except.isOk, Except.toBool] at this
      | error e0 =>
        obtain ⟨ipLast, e, hlast, hcl, hloop⟩ := ih (by simp)
          (fun q hq => hfail q (List.mem_cons_of_mem ip hq))
        refine ⟨ipLast, e, ?_, hcl, fun le => ?_⟩
        · rw [List.getLast?_cons_cons]
          exact hlast
        · simp only [tryLoop, hc]
          exact hloop (some e0)

theorem scanTls_eq_tryLoop (domain : String) (env : ScanEnv)
    (addrs : List DnsAddr) (hv : isAsciiHostname domain = true)
    (hdns : env.dns = Except.ok addrs) (hne : sortedOf addrs ≠ []) :
    scanTls domain env =
      tryLoop domain env ((sortedOf addrs).map (fun a => a.address)) env.t0
        none ((sortedOf addrs).map (fun a => a.address)) := by
  have hlen : ((sortedOf addrs).length == 0) = false := by
    by_cases hb : ((sortedOf addrs).length == 0) = true
    · exact absurd (List.length_eq_zero.mp (by simpa using hb)) hne
    · simpa using hb
  simp [scanTls, hv, hdns, hlen]

/-! ## Claim C1 -/

/-- Date oracle for the concrete runs below: every conversion
succeeds and returns its input unchanged. -/
def dateId : DateOracle := ⟨fun v => Except.ok v⟩

/-- Handshake data for the C1 counterexample run. -/
def handshakeC1 : HandshakeData :=
  { tlsVersion := some "TLSv1.3", alpnProtocol := some "h2",
    cipherName := some "TLS_AES_256_GCM_SHA384", raw := none,
    peer := { subjectCN := some "example.com", issuerCN := some "R3",
              valid_from := none, valid_to := none },
    handlerTime := "2024-05-01T00:00:05.000Z" }

/-- Environment for the C1 counterexample run: two IPv4 candidates, the
first refuses, the second completes the handshake. -/
def envC1 : ScanEnv :=
  { dns := Except.ok [⟨"9.9.9.9", 4⟩, ⟨"8.8.8.8", 4⟩],
    t0 := "2024-05-01T00:00:00.000Z",
    net := fun ip => if ip == "8.8.8.8" then Except.ok handshakeC1
      else Except.error "connect ECONNREFUSED",
    date := dateId }

/-- Counterexample to claim C1 as stated: the handshake fails at
9.9.9.9 and succeeds only at 8.8.8.8, yet the returned `resolvedIPs` is
the full candidate list, not the one successful address — the explicit
`resolvedIPs` property at scan.ts line 39 overrides the single-address
field the spread copied from `connectOnce`. -/
theorem resolvedIPs_full_list_cex :
    (envC1.net "9.9.9.9").isOk = false
    ∧ (envC1.net "8.8.8.8").isOk = true
    ∧ (scanTls "example.com" envC1).map (fun r => r.resolvedIPs) =
        Except.ok ["9.9.9.9", "8.8.8.8"]
    ∧ (["9.9.9.9", "8.8.8.8"] : List String) ≠ ["8.8.8.8"] :=
  ⟨by decide, by decide, by decide, by decide⟩

/-- Claim C1, amended: on every successful scan the returned
`resolvedIPs` equals the full ordered candidate list (IPv4 records
first, then IPv6); only the intermediate result `connectOnce` builds
carries exactly the one successful address. -/
theorem scan_resolvedIPs_full_candidate_list :
    (∀ domain env addrs r, env.dns = Except.ok addrs →
        scanTls domain env = Except.ok r →
        r.resolvedIPs = (sortedOf addrs).map (fun a => a.address))
    ∧ (∀ domain ip d out r0, connectOnce domain ip d out = Except.ok r0 →
        r0.resolvedIPs = [ip]) := by
  constructor
  · intro domain env addrs r hdns hok
    by_cases hv : isAsciiHostname domain = true
    · by_cases hne : sortedOf addrs = []
      · have hlen : ((sortedOf addrs).length == 0) = true := by
          simp [hne]
        simp [scanTls, hv, hdns, hlen] at hok
      · rw [scanTls_eq_tryLoop domain env addrs hv hdns hne] at hok
        obtain ⟨ip, r0, hmem, hcc, hr⟩ :=
          tryLoop_ok_shape domain env _ env.t0 _ none r hok
        rw [hr]
    · have hv2 : isAsciiHostname domain = false := by
        simpa using hv
      simp [scanTls, hv2] at hok
  · intro domain ip d out r0 h
    cases out with
    | error e => simp [connectOnce] at h
    | ok hs =>
      simp only [connectOnce, Except.ok.injEq] at h
      rw [← h]

/-! ## Claim C9 -/

/-- Handshake data for the C9 counterexample run: the handler clock
reads `"T1-handler"`. -/
def handshakeC9 : HandshakeData :=
  { tlsVersion := some "TLSv1.2", alpnProtocol := none,
    cipherName := some "ECDHE-RSA-AES128-GCM-SHA256", raw := none,
    peer := { subjectCN := some "example.org", issuerCN := some "R3",
              valid_from := none, valid_to := none },
    handlerTime := "T1-handler" }

/-- Environment for the C9 counterexample run: the pre-loop clock reads
`"T0-pre"`, one candidate succeeds. -/
def envC9 : ScanEnv :=
  { dns := Except.ok [⟨"8.8.8.8", 4⟩],
    t0 := "T0-pre",
    net := fun _ => Except.ok handshakeC9,
    date := dateId }

/-- Counterexample to claim C9 as stated: the handler captured
`"T1-handler"` but the returned `scannedAt` is the pre-loop `"T0-pre"` —
in `{ ...result, resolvedIPs, scannedAt }` the explicit `scannedAt`
property (the pre-loop value) overrides the spread's handler value, so
the earlier value wins, not the later one. -/
theorem scannedAt_handler_loses_cex :
    (envC9.net "8.8.8.8").map (fun h => h.handlerTime) =
        Except.ok "T1-handler"
    ∧ (scanTls "example.org" envC9).map (fun r => r.scannedAt) =
        Except.ok "T0-pre"
    ∧ ("T0-pre" : String) ≠ "T1-handler" :=
  ⟨by decide, by decide, by decide⟩

/-- Claim C9, amended: `scannedAt` is computed twice (before the trial
loop and inside the successful-candidate handler), and the pre-loop
value — the earlier one — wins in the returned ScanResult, because the
explicit property in the object literal overrides the spread; the
handler's value survives only in `connectOnce`'s intermediate result. -/
theorem scannedAt_pre_loop_value :
    (∀ domain env r, scanTls domain env = Except.ok r →
        r.scannedAt = env.t0)
    ∧ (∀ domain ip d h r0,
        connectOnce domain ip d (Except.ok h) = Except.ok r0 →
        r0.scannedAt = h.handlerTime) := by
  constructor
  · intro domain env r hok
    by_cases hv : isAsciiHostname domain = true
    · cases hdns : env.dns with
      | error m => simp [scanTls, hv, hdns] at hok
      | ok addrs =>
        by_cases hne : sortedOf addrs = []
        · have hlen : ((sortedOf addrs).length == 0) = true := by
            simp [hne]
          simp [scanTls, hv, hdns, hlen] at hok
        · rw [scanTls_eq_tryLoop domain env addrs hv hdns hne] at hok
          obtain ⟨ip, r0, hmem, hcc, hr⟩ :=
            tryLoop_ok_shape domain env _ env.t0 _ none r hok
          rw [hr]
    · have hv2 : isAsciiHostname domain = false := by
        simpa using hv
      simp [scanTls, hv2] at hok
  · intro domain ip d h r0 hcc
    simp only [connectOnce, Except.ok.injEq] at hcc
    rw [← hcc]

/-! ## Claim C3 -/

/-- Claim C3: for a validated domain and a non-empty candidate list the
trial loop visits candidates in resolved order with one `connectOnce`
attempt each; the scan's value is fixed by the first successful
candidate and the failures before it (later candidates are never
consulted), and when every candidate fails the scan rejects with
exactly the last candidate's recorded error (whose message and status
are never falsy, so the generic fallbacks of line 45-46 do not
engage). -/
theorem trial_loop_first_success_last_error
    (domain : String) (env : ScanEnv) (addrs : List DnsAddr)
    (ips : List String)
    (hv : isAsciiHostname domain = true)
    (hdns : env.dns = Except.ok addrs)
    (hips : ips = (sortedOf addrs).map (fun a => a.address))
    (hne : ips ≠ []) :
    (∀ pre ip post r0,
        ips = pre ++ ip :: post →
        (∀ p ∈ pre, (connectOnce domain p env.date (env.net p)).isOk = false) →
        connectOnce domain ip env.date (env.net ip) = Except.ok r0 →
        scanTls domain env =
          Except.ok { r0 with resolvedIPs := ips, scannedAt := env.t0 })
    ∧ ((∀ p ∈ ips, (connectOnce domain p env.date (env.net p)).isOk = false) →
        ∃ ipLast e, ips.getLast? = some ipLast ∧
          connectOnce domain ipLast env.date (env.net ipLast) =
            Except.error e ∧
          scanTls domain env = Except.error e) := by
  have hneAddrs : sortedOf addrs ≠ [] := by
    intro hcontra
    rw [hcontra] at hips
    exact hne (by simpa using hips)
  have heq := scanTls_eq_tryLoop domain env addrs hv hdns hneAddrs
  rw [← hips] at heq
  constructor
  · intro pre ip post r0 hsplit hfail hok
    rw [heq, hsplit]
    exact tryLoop_first_success domain env (pre ++ ip :: post) env.t0 pre ip
      post r0 none hfail hok
  · intro hfail
    obtain ⟨ipLast, e, hlast, hcl, hloop⟩ :=
      tryLoop_all_fail domain env ips env.t0 ips hne hfail
    exact ⟨ipLast, e, hlast, hcl, by rw [heq]; exact hloop none⟩

/-- Handshake data for the C3 witness run. -/
def handshakeC3 : HandshakeData :=
  { tlsVersion := some "TLSv1.3", alpnProtocol := some "h2",
    cipherName := some "TLS_AES_128_GCM_SHA256", raw := none,
    peer := { subjectCN := some "example.net", issuerCN := some "R3",
              valid_from := none, valid_to := none },
    handlerTime := "T1" }

/-- Environment for the C3 witness run: first candidate refused, second
succeeds. -/
def envC3 : ScanEnv :=
  { dns := Except.ok [⟨"9.9.9.9", 4⟩, ⟨"8.8.8.8", 4⟩],
    t0 := "T0",
    net := fun ip => if ip == "8.8.8.8" then Except.ok handshakeC3
      else Except.error "connect ECONNREFUSED",
    date := dateId }

/-- The result `connectOnce` produces at the successful C3 witness
candidate. -/
def resC3base : TlsScanResult :=
  { domain := "example.net", resolvedIPs := ["8.8.8.8"],
    tlsVersion := some "TLSv1.3", alpn := some "h2",
    cipherSuite := some "TLS_AES_128_GCM_SHA256",
    cert := { defaultCert with
              cn := some "example.net",
              issuer := some "R3" },
    posture := { tls_ok := true, weak_alg := false, pqc_ready := "unknown" },
    scannedAt := "T1" }

/-- Witness for claim C3's theorem at a concrete two-candidate run. -/
theorem trial_loop_first_success_last_error_witness :
    scanTls "example.net" envC3 =
      Except.ok { resC3base with
                  resolvedIPs := ["9.9.9.9", "8.8.8.8"],
                  scannedAt := "T0" } := by
  have happ := (trial_loop_first_success_last_error "example.net" envC3
      [⟨"9.9.9.9", 4⟩, ⟨"8.8.8.8", 4⟩] ["9.9.9.9", "8.8.8.8"]
      (by decide) rfl (by decide) (by decide)).1
      ["9.9.9.9"] "8.8.8.8" [] resC3base rfl (by decide) (by decide)
  exact happ

/-! ## Claim C6 -/

theorem jsDateFieldOpt_ok (d : DateOracle) (o : Option String)
    (hdate : ∀ v, ∃ s, d.toIso v = Except.ok s) :
    ∃ nb, jsDateFieldOpt d o = Except.ok nb := by
  cases o with
  | none => exact ⟨none, rfl⟩
  | some v =>
    by_cases hve : (v == "") = true
    · exact ⟨none, by simp [jsDateFieldOpt, jsDateField, hve]⟩
    · obtain ⟨s, hs⟩ := hdate v
      have hve2 : (v == "") = false := by simpa using hve
      exact ⟨some s, by simp [jsDateFieldOpt, jsDateField, hve2, hs, Except.map]⟩

/-- Claim C6: when raw certificate bytes are unavailable after a
successful handshake, extraction takes the fallback path — the returned
CertificateInfo carries common name, issuer common name and the
validity window from the handshake library's pre-parsed summary, every
other field stays absent (empty SAN list, no signature algorithm, key
type `"unknown"`, no key bits, no fingerprint) — and the scan still
succeeds, both at the connection level and end to end. -/
theorem fallback_extraction_fields
    (domain ip : String) (d : DateOracle) (h : HandshakeData)
    (hraw : h.raw = none)
    (hdate : ∀ v, ∃ s, d.toIso v = Except.ok s) :
    ∃ r, connectOnce domain ip d (Except.ok h) = Except.ok r
      ∧ r.cert.cn = h.peer.subjectCN
      ∧ r.cert.issuer = h.peer.issuerCN
      ∧ (h.peer.valid_from = none → r.cert.notBefore = none)
      ∧ (∀ v s, h.peer.valid_from = some v → d.toIso v = Except.ok s →
          r.cert.notBefore = (if v == "" then none else some s))
      ∧ (h.peer.valid_to = none → r.cert.notAfter = none)
      ∧ (∀ v s, h.peer.valid_to = some v → d.toIso v = Except.ok s →
          r.cert.notAfter = (if v == "" then none else some s))
      ∧ r.cert.san = [] ∧ r.cert.signatureAlgorithm = none
      ∧ r.cert.keyType = "unknown" ∧ r.cert.keyBitsOrCurve = none
      ∧ r.cert.fingerprint256 = none
      ∧ (∀ env : ScanEnv, isAsciiHostname domain = true →
          env.dns = Except.ok [⟨ip, 4⟩] → env.net ip = Except.ok h →
          env.date = d → (scanTls domain env).isOk = true) := by
  obtain ⟨nb, hnb⟩ := jsDateFieldOpt_ok d h.peer.valid_from hdate
  obtain ⟨na, hna⟩ := jsDateFieldOpt_ok d h.peer.valid_to hdate
  have hrf : runFallback d h.peer =
      { defaultCert with
        cn := h.peer.subjectCN, issuer := h.peer.issuerCN,
        notBefore := nb, notAfter := na } := by
    simp only [runFallback, hnb, hna]
  obtain ⟨r, hc, hcert0⟩ :
      ∃ r, connectOnce domain ip d (Except.ok h) = Except.ok r ∧
        r.cert = extractCert d h.raw h.peer := ⟨_, rfl, rfl⟩
  rw [hraw] at hcert0
  simp only [extractCert] at hcert0
  rw [hrf] at hcert0
  have hnbval : ∀ v s, h.peer.valid_from = some v → d.toIso v = Except.ok s →
      nb = (if v == "" then none else some s) := by
    intro v s hvf hs
    rw [hvf] at hnb
    by_cases hve : (v == "") = true
    · simp only [jsDateFieldOpt, jsDateField, hve, if_true,
        Except.ok.injEq] at hnb
      rw [← hnb, if_pos hve]
    · have hve2 : (v == "") = false := by simpa using hve
      simp only [jsDateFieldOpt, jsDateField, hve2, Bool.false_eq_true,
        if_false, hs, Except.map, Except.ok.injEq] at hnb
      rw [← hnb, if_neg (by simp [hve2])]
  have hnaval : ∀ v s, h.peer.valid_to = some v → d.toIso v = Except.ok s →
      na = (if v == "" then none else some s) := by
    intro v s hvt hs
    rw [hvt] at hna
    by_cases hve : (v == "") = true
    · simp only [jsDateFieldOpt, jsDateField, hve, if_true,
        Except.ok.injEq] at hna
      rw [← hna, if_pos hve]
    · have hve2 : (v == "") = false := by simpa using hve
      simp only [jsDateFieldOpt, jsDateField, hve2, Bool.false_eq_true,
        if_false, hs, Except.map, Except.ok.injEq] at hna
      rw [← hna, if_neg (by simp [hve2])]
  refine ⟨r, hc, by simp [hcert0], by simp [hcert0], ?_, ?_, ?_, ?_,
    by simp [hcert0, defaultCert], by simp [hcert0, defaultCert],
    by simp [hcert0, defaultCert], by simp [hcert0, defaultCert],
    by simp [hcert0, defaultCert], ?_⟩
  · intro hvf
    rw [hcert0]
    show nb = none
    rw [hvf] at hnb
    simpa [jsDateFieldOpt] using hnb.symm
  · intro v s hvf hs
    rw [hcert0]
    show nb = _
    exact hnbval v s hvf hs
  · intro hvt
    rw [hcert0]
    show na = none
    rw [hvt] at hna
    simpa [jsDateFieldOpt] using hna.symm
  · intro v s hvt hs
    rw [hcert0]
    show na = _
    exact hnaval v s hvt hs
  · intro env hv hdns hnet hd
    have hsorted : sortedOf [(⟨ip, 4⟩ : DnsAddr)] = [⟨ip, 4⟩] := rfl
    have hne : sortedOf [(⟨ip, 4⟩ : DnsAddr)] ≠ [] := by
      rw [hsorted]; simp
    have heq := scanTls_eq_tryLoop domain env [⟨ip, 4⟩] hv hdns hne
    rw [heq, hsorted]
    show (tryLoop domain env [ip] env.t0 none [ip]).isOk = true
    rw [show tryLoop domain env [ip] env.t0 none [ip] =
        Except.ok { r with resolvedIPs := [ip], scannedAt := env.t0 } from by
      simp only [tryLoop]
      rw [hnet, hd, hc]]
    rfl

/-- Handshake data for the C6 witness run: raw certificate bytes
unavailable, summary fields present. -/
def handshakeC6 : HandshakeData :=
  { tlsVersion := some "TLSv1.3", alpnProtocol := some "h2",
    cipherName := some "TLS_AES_128_GCM_SHA256", raw := none,
    peer := { subjectCN := some "example.com", issuerCN := some "R3",
              valid_from := some "Jan 1 2024", valid_to := some "Apr 1 2024" },
    handlerTime := "T1" }

/-- Witness for claim C6's theorem at a concrete fallback run. -/
theorem fallback_extraction_fields_witness :
    ∃ r, connectOnce "example.com" "8.8.8.8" dateId (Except.ok handshakeC6) =
        Except.ok r
      ∧ r.cert.cn = some "example.com" ∧ r.cert.fingerprint256 = none := by
  obtain ⟨r, hc, hcn, hiss, hnb0, hnb1, hna0, hna1, hsan, hsig, hkt, hkb,
    hfp, hscan⟩ :=
    fallback_extraction_fields "example.com" "8.8.8.8" dateId handshakeC6
      rfl (fun v => ⟨v, rfl⟩)
  exact ⟨r, hc, hcn.trans rfl, hfp⟩

/-! ## Claim C7 -/

/-- Claim C7: certificate extraction can never fail a scan whose
handshake succeeded — the `secureConnect` handler always resolves — and
the `catch` at scan.ts line 125 preserves partial progress: whichever
sub-step of the primary path throws first, every field assigned by the
sub-steps before it keeps its computed value and every later field keeps
its initial value.  The conjuncts walk the failure points in source
order: X509 construction, fingerprint, issuer, the two validity-date
accessors and conversions, signature algorithm, subject, public key, and
finally the all-steps-succeed case. -/
theorem extraction_errors_never_fail_scan :
    (∀ domain ip d h, (connectOnce domain ip d (Except.ok h)).isOk = true)
    ∧ (∀ d, runPrimary d (Except.error ()) = defaultCert)
    ∧ (∀ d x, x.fingerprint256 = Except.error () →
        runPrimary d (Except.ok x) = defaultCert)
    ∧ (∀ d x fp, x.fingerprint256 = Except.ok fp →
        x.issuer = Except.error () →
        runPrimary d (Except.ok x) =
          { defaultCert with fingerprint256 := some (stripColons fp) })
    ∧ (∀ d x fp istr, x.fingerprint256 = Except.ok fp →
        x.issuer = Except.ok istr → x.validFrom = Except.error () →
        runPrimary d (Except.ok x) =
          { defaultCert with
            fingerprint256 := some (stripColons fp),
            issuer := orNull istr })
    ∧ (∀ d x fp istr vf, x.fingerprint256 = Except.ok fp →
        x.issuer = Except.ok istr → x.validFrom = Except.ok vf →
        jsDateField d vf = Except.error () →
        runPrimary d (Except.ok x) =
          { defaultCert with
            fingerprint256 := some (stripColons fp),
            issuer := orNull istr })
    ∧ (∀ d x fp istr vf nb, x.fingerprint256 = Except.ok fp →
        x.issuer = Except.ok istr → x.validFrom = Except.ok vf →
        jsDateField d vf = Except.ok nb → x.validTo = Except.error () →
        runPrimary d (Except.ok x) =
          { defaultCert with
            fingerprint256 := some (stripColons fp),
            issuer := orNull istr, notBefore := nb })
    ∧ (∀ d x fp istr vf nb vt, x.fingerprint256 = Except.ok fp →
        x.issuer = Except.ok istr → x.validFrom = Except.ok vf →
        jsDateField d vf = Except.ok nb → x.validTo = Except.ok vt →
        jsDateField d vt = Except.error () →
        runPrimary d (Except.ok x) =
          { defaultCert with
            fingerprint256 := some (stripColons fp),
            issuer := orNull istr, notBefore := nb })
    ∧ (∀ d x fp istr vf nb vt na, x.fingerprint256 = Except.ok fp →
        x.issuer = Except.ok istr → x.validFrom = Except.ok vf →
        jsDateField d vf = Except.ok nb → x.validTo = Except.ok vt →
        jsDateField d vt = Except.ok na →
        x.signatureAlgorithm = Except.error () →
        runPrimary d (Except.ok x) =
          { defaultCert with
            fingerprint256 := some (stripColons fp),
            issuer := orNull istr, notBefore := nb, notAfter := na })
    ∧ (∀ d x fp istr vf nb vt na sa, x.fingerprint256 = Except.ok fp →
        x.issuer = Except.ok istr → x.validFrom = Except.ok vf →
        jsDateField d vf = Except.ok nb → x.validTo = Except.ok vt →
        jsDateField d vt = Except.ok na →
        x.signatureAlgorithm = Except.ok sa → x.subject = Except.error () →
        runPrimary d (Except.ok x) =
          { defaultCert with
            fingerprint256 := some (stripColons fp),
            issuer := orNull istr, notBefore := nb, notAfter := na,
            signatureAlgorithm := orNull sa })
    ∧ (∀ d x fp istr vf nb vt na sa subj, x.fingerprint256 = Except.ok fp →
        x.issuer = Except.ok istr → x.validFrom = Except.ok vf →
        jsDateField d vf = Except.ok nb → x.validTo = Except.ok vt →
        jsDateField d vt = Except.ok na →
        x.signatureAlgorithm = Except.ok sa → x.subject = Except.ok subj →
        x.publicKey = Except.error () →
        runPrimary d (Except.ok x) =
          { defaultCert with
            fingerprint256 := some (stripColons fp),
            issuer := orNull istr, notBefore := nb, notAfter := na,
            signatureAlgorithm := orNull sa,
            cn := orNullOpt (extractCN subj), san := sanValue x })
    ∧ (∀ d x fp istr vf nb vt na sa subj pk, x.fingerprint256 = Except.ok fp →
        x.issuer = Except.ok istr → x.validFrom = Except.ok vf →
        jsDateField d vf = Except.ok nb → x.validTo = Except.ok vt →
        jsDateField d vt = Except.ok na →
        x.signatureAlgorithm = Except.ok sa → x.subject = Except.ok subj →
        x.publicKey = Except.ok pk →
        runPrimary d (Except.ok x) =
          classifyKey
            { defaultCert with
              fingerprint256 := some (stripColons fp),
              issuer := orNull istr, notBefore := nb, notAfter := na,
              signatureAlgorithm := orNull sa,
              cn := orNullOpt (extractCN subj), san := sanValue x } pk) := by
  refine ⟨fun domain ip d h => rfl, fun d => rfl, ?_, ?_, ?_, ?_, ?_, ?_,
    ?_, ?_, ?_, ?_⟩
  · intro d x h1
    simp only [runPrimary, h1]
  · intro d x fp h1 h2
    simp only [runPrimary, h1, h2]
  · intro d x fp istr h1 h2 h3
    simp only [runPrimary, h1, h2, h3]
  · intro d x fp istr vf h1 h2 h3 h4
    simp only [runPrimary, h1, h2, h3, h4]
  · intro d x fp istr vf nb h1 h2 h3 h4 h5
    simp only [runPrimary, h1, h2, h3, h4, h5]
  · intro d x fp istr vf nb vt h1 h2 h3 h4 h5 h6
    simp only [runPrimary, h1, h2, h3, h4, h5, h6]
  · intro d x fp istr vf nb vt na h1 h2 h3 h4 h5 h6 h7
    simp only [runPrimary, h1, h2, h3, h4, h5, h6, h7]
  · intro d x fp istr vf nb vt na sa h1 h2 h3 h4 h5 h6 h7 h8
    simp only [runPrimary, h1, h2, h3, h4, h5, h6, h7, h8]
  · intro d x fp istr vf nb vt na sa subj h1 h2 h3 h4 h5 h6 h7 h8 h9
    simp only [runPrimary, h1, h2, h3, h4, h5, h6, h7, h8, h9]
  · intro d x fp istr vf nb vt na sa subj pk h1 h2 h3 h4 h5 h6 h7 h8 h9
    simp only [runPrimary, h1, h2, h3, h4, h5, h6, h7, h8, h9]

end CipherWyze
